import Mathlib

/-!
Verification of the AG-UI frontend-tools client
(`src/client_with_frontend_tools.py` and the interactive loop of
`src/client.py`).

The development shallowly embeds the client's event-processing loop:

* `Json` models decoded JSON values; `parseJson` models a strict JSON
  decode (`json.loads`) on the subset of JSON the client exchanges
  (objects, arrays, double-quoted strings with simple escapes, integer
  numbers, booleans, null).  Single-quoted strings are rejected, as the
  strict decoder rejects them.
* `processEvent` embeds the body of the `async for` loop of
  `AGUIClientWithTools.send_message` (tool-call assembly, thread-id
  capture, yielding of non-tool events), `processLine` the SSE framing
  around it, and `handleToolCall` embeds
  `AGUIClientWithTools._handle_tool_call`.
* `mainLoop` embeds the interactive read-eval loop of `main`.
-/

/-- Decoded JSON values (`json.loads` results).  Numbers are modelled as
integers, which covers every payload the client exchanges. -/
inductive Json where
  | null
  | bool (b : Bool)
  | num (n : Int)
  | str (s : String)
  | arr (xs : List Json)
  | obj (kvs : List (String × Json))
deriving Repr

def quoteChar : Char := Char.ofNat 34

def backslashChar : Char := Char.ofNat 92

def lbraceChar : Char := Char.ofNat 123

def rbraceChar : Char := Char.ofNat 125

/-- Skip JSON whitespace, as `json.loads` does between tokens. -/
def skipWs : List Char → List Char
  | [] => []
  | c :: cs =>
    if c = ' ' ∨ c = Char.ofNat 9 ∨ c = Char.ofNat 10 ∨ c = Char.ofNat 13 then
      skipWs cs
    else c :: cs

/-- Decode a JSON string escape character. -/
def escChar (e : Char) : Option Char :=
  if e = quoteChar then some quoteChar
  else if e = backslashChar then some backslashChar
  else if e = '/' then some '/'
  else if e = 'n' then some (Char.ofNat 10)
  else if e = 't' then some (Char.ofNat 9)
  else if e = 'r' then some (Char.ofNat 13)
  else if e = 'b' then some (Char.ofNat 8)
  else if e = 'f' then some (Char.ofNat 12)
  else none

/-- Parse the body of a double-quoted JSON string, after the opening
quote: returns the decoded characters and the remaining input. -/
def parseStrChars : List Char → Option (List Char × List Char)
  | [] => none
  | c :: rest =>
    if c = quoteChar then some ([], rest)
    else if c = backslashChar then
      match rest with
      | [] => none
      | e :: rest2 =>
        match escChar e with
        | some d => (parseStrChars rest2).map (fun p => (d :: p.1, p.2))
        | none => none
    else (parseStrChars rest).map (fun p => (c :: p.1, p.2))

def takeDigits : List Char → List Char × List Char
  | [] => ([], [])
  | c :: cs =>
    if c.isDigit then
      let p := takeDigits cs
      (c :: p.1, p.2)
    else ([], c :: cs)

def digitsToNat : List Char → Nat → Nat
  | [], acc => acc
  | c :: cs, acc => digitsToNat cs (acc * 10 + (c.toNat - 48))

/-- Insert a key/value pair into an association list with dict update
semantics: replace in place if the key is present, else append. -/
def assocPut (k : String) (v : Json) : List (String × Json) → List (String × Json)
  | [] => [(k, v)]
  | (k2, v2) :: rest =>
    if k2 = k then (k, v) :: rest else (k2, v2) :: assocPut k v rest

mutual

/-- Fuel-based recursive-descent JSON value parser: returns the value
and the remaining input. -/
def parseVal : Nat → List Char → Option (Json × List Char)
  | 0, _ => none
  | Nat.succ fuel, cs =>
    match skipWs cs with
    | [] => none
    | 'n' :: 'u' :: 'l' :: 'l' :: rest => some (Json.null, rest)
    | 't' :: 'r' :: 'u' :: 'e' :: rest => some (Json.bool true, rest)
    | 'f' :: 'a' :: 'l' :: 's' :: 'e' :: rest => some (Json.bool false, rest)
    | c :: rest =>
      if c = quoteChar then
        (parseStrChars rest).map (fun p => (Json.str (String.mk p.1), p.2))
      else if c = '[' then
        match skipWs rest with
        | d :: r2 => if d = ']' then some (Json.arr [], r2) else parseElems fuel rest []
        | [] => none
      else if c = lbraceChar then
        match skipWs rest with
        | d :: r2 => if d = rbraceChar then some (Json.obj [], r2) else parseMembers fuel rest []
        | [] => none
      else if c = '-' then
        match takeDigits rest with
        | ([], _) => none
        | (ds, r2) => some (Json.num (-(Int.ofNat (digitsToNat ds 0))), r2)
      else if c.isDigit then
        match takeDigits (c :: rest) with
        | (ds, r2) => some (Json.num (Int.ofNat (digitsToNat ds 0)), r2)
      else none

/-- Parse the elements of a non-empty JSON array. -/
def parseElems : Nat → List Char → List Json → Option (Json × List Char)
  | 0, _, _ => none
  | Nat.succ fuel, cs, acc =>
    match parseVal fuel cs with
    | none => none
    | some (v, r) =>
      match skipWs r with
      | d :: r2 =>
        if d = ',' then parseElems fuel r2 (acc ++ [v])
        else if d = ']' then some (Json.arr (acc ++ [v]), r2)
        else none
      | [] => none

/-- Parse the members of a non-empty JSON object. -/
def parseMembers : Nat → List Char → List (String × Json) → Option (Json × List Char)
  | 0, _, _ => none
  | Nat.succ fuel, cs, acc =>
    match skipWs cs with
    | [] => none
    | d :: r1 =>
      if d = quoteChar then
        match parseStrChars r1 with
        | none => none
        | some (kcs, r2) =>
          match skipWs r2 with
          | [] => none
          | e :: r3 =>
            if e = ':' then
              match parseVal fuel r3 with
              | none => none
              | some (v, r4) =>
                match skipWs r4 with
                | [] => none
                | g :: r5 =>
                  if g = ',' then parseMembers fuel r5 (assocPut (String.mk kcs) v acc)
                  else if g = rbraceChar then
                    some (Json.obj (assocPut (String.mk kcs) v acc), r5)
                  else none
            else none
      else none

end

/-- Strict JSON decode of a whole string (`json.loads`): one value,
surrounded only by whitespace; anything else fails. -/
def parseJson (s : String) : Option Json :=
  match parseVal (2 * s.length + 4) s.data with
  | some (v, rest) => if skipWs rest = [] then some v else none
  | none => none

example : parseJson "" = none := rfl

example : parseJson "\x7b\x22x\x22:1\x7d" = some (Json.obj [("x", Json.num 1)]) := rfl

example : parseJson " \x7b \x22a\x22 : [1, -2, true, null] \x7d " =
    some (Json.obj [("a", Json.arr [Json.num 1, Json.num (-2), Json.bool true, Json.null])]) := rfl

example : parseJson "\x7b\x27x\x27: 1\x7d" = none := rfl

example : parseJson "\x7boops" = none := rfl

/-- Dictionary lookup on a decoded JSON object (`event.get(key)`):
`none` both for a missing key and for a non-object value. -/
def Json.get? : Json → String → Option Json
  | Json.obj kvs, k => go kvs k
  | _, _ => none
where
  go : List (String × Json) → String → Option Json
    | [], _ => none
    | (k2, v) :: rest, k => if k2 = k then some v else go rest k

/-- Python truthiness of a decoded JSON value. -/
def Json.truthy : Json → Bool
  | Json.null => false
  | Json.bool b => b
  | Json.num n => n ≠ 0
  | Json.str s => s ≠ ""
  | Json.arr xs => !xs.isEmpty
  | Json.obj kvs => !kvs.isEmpty

/-- Python truthiness of `event.get(...)` results (`None` is falsy). -/
def truthyOpt : Option Json → Bool
  | none => false
  | some j => j.truthy

/-- The event kind, `event.get("type")`, when it is a string; any
non-string kind compares unequal to every kind literal. -/
def getTypeStr (event : Json) : Option String :=
  match Json.get? event "type" with
  | some (Json.str s) => some s
  | _ => none

/-- The argument fragment `event.get("delta", "")` of a TOOL_CALL_ARGS
event (string fragments; a missing field defaults to the empty
string). -/
def getDelta (event : Json) : String :=
  match Json.get? event "delta" with
  | some (Json.str s) => s
  | _ => ""

/-- Equality of pending-map keys (`toolCallId` values used as dict
keys).  Python dict keys are hashable scalars; unhashable values
(arrays/objects) never occur as keys, and the model makes them compare
unequal. -/
def Json.keyBeq : Json → Json → Bool
  | Json.null, Json.null => true
  | Json.bool a, Json.bool b => a = b
  | Json.num a, Json.num b => a = b
  | Json.str a, Json.str b => a = b
  | _, _ => false

/-- A key is a hashable scalar usable as a Python dict key. -/
def Json.hashable : Json → Bool
  | Json.null => true
  | Json.bool _ => true
  | Json.num _ => true
  | Json.str _ => true
  | Json.arr _ => false
  | Json.obj _ => false

def keyEq : Option Json → Option Json → Bool
  | none, none => true
  | some a, some b => Json.keyBeq a b
  | _, _ => false

def hashableOpt : Option Json → Bool
  | none => true
  | some j => j.hashable

/-- One in-flight tool call: `pending_tool_calls[tcid] = {"name": ...,
"buffer": ...}`. -/
structure PendingEntry where
  name : Option Json
  buffer : String
deriving Repr

/-- The `pending_tool_calls` dict: association list keyed by the raw
`toolCallId` value, insertion-ordered like a Python dict. -/
abbrev PendMap := List (Option Json × PendingEntry)

/-- Dict assignment `pending_tool_calls[k] = v`: replace in place or
append. -/
def pendInsert (k : Option Json) (v : PendingEntry) : PendMap → PendMap
  | [] => [(k, v)]
  | (k2, v2) :: rest =>
    if keyEq k2 k then (k, v) :: rest else (k2, v2) :: pendInsert k v rest

/-- Dict lookup `pending_tool_calls.get(k)` / `k in pending_tool_calls`. -/
def pendLookup (k : Option Json) : PendMap → Option PendingEntry
  | [] => none
  | (k2, v2) :: rest => if keyEq k2 k then some v2 else pendLookup k rest

/-- The removal part of `pending_tool_calls.pop(k, None)`. -/
def pendRemove (k : Option Json) : PendMap → PendMap
  | [] => []
  | (k2, v2) :: rest => if keyEq k2 k then rest else (k2, v2) :: pendRemove k rest

/-- Result of a tool handler (`tool_func(**arguments)`): either a plain
value, or a structured (Pydantic) value that carries its `model_dump()`
form. -/
inductive ToolRet where
  | plain (j : Json)
  | pydantic (dump : Json)
deriving Repr

/-- Lines 204-206: convert a Pydantic model result to a plain dict
before transmission; plain results pass through. -/
def normalizeResult : ToolRet → Json
  | ToolRet.plain j => j
  | ToolRet.pydantic d => d

/-- The local tool registry `self.tools`: names to handlers.  A handler
models `tool_func(**arguments)` and either returns a result or raises
(`Except.error` carries `str(e)`). -/
abbrev Registry := List (String × (Json → Except String ToolRet))

/-- Registry lookup `self.tools.get(tool_name)`: only a string name can
match a registered tool. -/
def lookupTool (R : Registry) : Option Json → Option (Json → Except String ToolRet)
  | some (Json.str s) => go R s
  | _ => none
where
  go : Registry → String → Option (Json → Except String ToolRet)
    | [], _ => none
    | (n, f) :: rest, s => if n = s then some f else go rest s

/-- Python `str()` of a tool name taken from a decoded event, as used in
the f-string `f"Unknown tool: {tool_name}"`.  Non-scalar names never
occur; the model renders them with a placeholder. -/
def pyShow : Option Json → String
  | none => "None"
  | some Json.null => "None"
  | some (Json.bool true) => "True"
  | some (Json.bool false) => "False"
  | some (Json.num n) => toString n
  | some (Json.str s) => s
  | some (Json.arr _) => "<list>"
  | some (Json.obj _) => "<dict>"

/-- The consolidated `handler_event` built at TOOL_CALL_END (lines
169-174): the assembled call handed to `_handle_tool_call`. -/
structure AssembledCall where
  toolCallName : Option Json
  toolCallId : Option Json
  arguments : Json
deriving Repr

/-- Body of the tool-result POST: `{"tool_call_id": ..., "result": ...}`
on success, `{"tool_call_id": ..., "error": ...}` on failure. -/
inductive PostBody where
  | success (tool_call_id : Option Json) (result : Json)
  | error (tool_call_id : Option Json) (error : String)
deriving Repr

/-- The id tag of a tool-result POST body. -/
def PostBody.tag : PostBody → Option Json
  | PostBody.success i _ => i
  | PostBody.error i _ => i

/-- One HTTP POST performed by the dispatcher: target URL and JSON body. -/
structure PostMsg where
  url : String
  body : PostBody
deriving Repr

/-- `AGUIClientWithTools._handle_tool_call` (lines 187-228): resolve the
name in the registry (unknown names raise `ValueError(f"Unknown tool:
...")` inside the same `try`), invoke the handler, normalize the result,
and POST exactly one tool result to `{server_url}/tool_result`; every
exception is caught and reported as an error POST. -/
def handleToolCall (base : String) (R : Registry) (c : AssembledCall) : PostMsg :=
  { url := base ++ "/tool_result",
    body :=
      match lookupTool R c.toolCallName with
      | none => PostBody.error c.toolCallId ("Unknown tool: " ++ pyShow c.toolCallName)
      | some f =>
        match f c.arguments with
        | Except.ok r => PostBody.success c.toolCallId (normalizeResult r)
        | Except.error e => PostBody.error c.toolCallId e }

/-- Replace every single quote by a double quote:
`buf.replace("'", '"')`. -/
def replaceQuotes (s : String) : String :=
  String.mk (s.data.map (fun c => if c = Char.ofNat 39 then quoteChar else c))

/-- The argument-parse policy at TOOL_CALL_END for a non-empty buffer
(lines 160-167): strict decode, then the single-quote fallback, then the
empty object. -/
def parseToolArgs (buf : String) : Json :=
  match parseJson buf with
  | some v => v
  | none =>
    match parseJson (replaceQuotes buf) with
    | some v => v
    | none => Json.obj []

/-- Per-session mutable client state read and written by the streaming
loop: `self.thread_id` and the `pending_tool_calls` map. -/
structure ClientState where
  threadId : Option Json
  pending : PendMap
deriving Repr

/-- What one decoded event produces: an event yielded to the caller, or
a tool-result POST for an assembled call handed to the dispatcher. -/
inductive Output where
  | yielded (e : Json)
  | post (c : AssembledCall) (p : PostMsg)
deriving Repr

/-- The body of the `async for` loop of `send_message` on one decoded
event (lines 133-182): assemble tool-call lifecycle events, dispatch at
TOOL_CALL_END, capture the thread id from RUN_STARTED while unset, and
yield every non-tool event. -/
def processEvent (base : String) (R : Registry) (s : ClientState) (event : Json) :
    ClientState × List Output :=
  let evType := getTypeStr event
  if evType = some "TOOL_CALL_START" then
    let tcid := Json.get? event "toolCallId"
    ({ s with pending :=
        pendInsert tcid { name := Json.get? event "toolCallName", buffer := "" } s.pending },
      [])
  else if evType = some "TOOL_CALL_ARGS" then
    let tcid := Json.get? event "toolCallId"
    let delta := getDelta event
    match pendLookup tcid s.pending with
    | some entry =>
        ({ s with pending :=
            pendInsert tcid { entry with buffer := entry.buffer ++ delta } s.pending }, [])
    | none =>
        ({ s with pending :=
            pendInsert tcid { name := Json.get? event "toolCallName", buffer := delta } s.pending },
          [])
  else if evType = some "TOOL_CALL_END" then
    let tcid := Json.get? event "toolCallId"
    let info := pendLookup tcid s.pending
    let args : Json :=
      match info with
      | some entry => if entry.buffer = "" then Json.obj [] else parseToolArgs entry.buffer
      | none => Json.obj []
    let call : AssembledCall :=
      { toolCallName :=
          match info with
          | some entry => entry.name
          | none => Json.get? event "toolCallName",
        toolCallId := tcid,
        arguments := args }
    ({ s with pending := pendRemove tcid s.pending },
      [Output.post call (handleToolCall base R call)])
  else
    let s2 :=
      if evType = some "RUN_STARTED" ∧ truthyOpt s.threadId = false then
        { s with threadId := Json.get? event "threadId" }
      else s
    (s2, [Output.yielded event])

/-- The SSE frame test `line.startswith("data: ")` together with the
payload extraction `line[6:]`: the payload when the line carries the
frame marker, `none` otherwise. -/
def dataPayload (line : String) : Option String :=
  match line.data with
  | 'd' :: 'a' :: 't' :: 'a' :: ':' :: ' ' :: rest => some (String.mk rest)
  | _ => none

/-- One raw transport line (lines 127-131, 184-185): only lines carrying
the `data: ` frame marker whose payload decodes as JSON produce any
effect; other lines are skipped. -/
def processLine (base : String) (R : Registry) (s : ClientState) (line : String) :
    ClientState × List Output :=
  match dataPayload line with
  | some payload =>
    match parseJson payload with
    | some event => processEvent base R s event
    | none => (s, [])
  | none => (s, [])

/-- Sequential processing of a list of decoded events. -/
def processEvents (base : String) (R : Registry) (s : ClientState) :
    List Json → ClientState × List Output
  | [] => (s, [])
  | e :: es =>
    let r1 := processEvent base R s e
    let r2 := processEvents base R r1.1 es
    (r2.1, r1.2 ++ r2.2)

/-- Sequential processing of a list of raw transport lines. -/
def processLines (base : String) (R : Registry) (s : ClientState) :
    List String → ClientState × List Output
  | [] => (s, [])
  | l :: ls =>
    let r1 := processLine base R s l
    let r2 := processLines base R r1.1 ls
    (r2.1, r1.2 ++ r2.2)

/-- The outbound request body built by `send_message` (lines 102-111):
messages plus `thread_id`, the latter included only while
`self.thread_id` is truthy. -/
structure RequestBody where
  messages : List (String × String)
  thread_id : Option Json
deriving Repr

def buildRequest (threadId : Option Json) (message : String) : RequestBody :=
  { messages :=
      [("system", "You are a helpful assistant with access to client tools."),
        ("user", message)],
    thread_id := if truthyOpt threadId then threadId else none }

/-- A TOOL_CALL_START event as the protocol sends it. -/
def mkStart (id : Json) (name : Json) : Json :=
  Json.obj [("type", Json.str "TOOL_CALL_START"), ("toolCallId", id), ("toolCallName", name)]

/-- A TOOL_CALL_ARGS event as the protocol sends it. -/
def mkArgs (id : Json) (frag : String) : Json :=
  Json.obj [("type", Json.str "TOOL_CALL_ARGS"), ("toolCallId", id), ("delta", Json.str frag)]

/-- A TOOL_CALL_END event as the protocol sends it. -/
def mkEnd (id : Json) : Json :=
  Json.obj [("type", Json.str "TOOL_CALL_END"), ("toolCallId", id)]

/-- A RUN_STARTED event carrying a thread id. -/
def mkRunStarted (tid : Json) : Json :=
  Json.obj [("type", Json.str "RUN_STARTED"), ("threadId", tid)]

/-- Concatenation of argument fragments in arrival order. -/
def concatFrags : List String → String
  | [] => ""
  | f :: fs => f ++ concatFrags fs

def isPyWs (c : Char) : Bool :=
  c = ' ' ∨ c = Char.ofNat 9 ∨ c = Char.ofNat 10 ∨ c = Char.ofNat 13 ∨
    c = Char.ofNat 11 ∨ c = Char.ofNat 12

/-- Python `str.strip()`: remove leading and trailing whitespace. -/
def pyStrip (s : String) : String :=
  String.mk (((s.data.dropWhile isPyWs).reverse.dropWhile isPyWs).reverse)

/-- Python `str.lower()` on the ASCII range the loop compares against. -/
def pyLower (s : String) : String :=
  String.mk (s.data.map fun c =>
    if 65 ≤ c.toNat ∧ c.toNat ≤ 90 then Char.ofNat (c.toNat + 32) else c)

/-- What ends one iteration of the interactive loop body: a Python
`KeyboardInterrupt`, or any other exception carrying `str(e)`. -/
inductive PyErr where
  | interrupt
  | exc (msg : String)
deriving Repr, DecidableEq

/-- Observable outcome of the interactive loop of `main` (lines
238-269): which messages were handed to `send_message`, what the
top-level `except` printed, and the process exit code. -/
structure LoopResult where
  processed : List String
  errorPrinted : Option String
  exitCode : Nat
deriving Repr, DecidableEq

/-- The interactive read-eval loop of `main` (lines 238-269), run over a
list of input lines; `send` models processing one message (the
`async for` over `send_message`), which may raise.  The `try` wraps the
whole `while` loop: the first raised exception leaves the loop, both
`except` arms fall through, and `main` returns normally (exit code 0).
Exhausted input models `input()` raising `EOFError`, caught by the same
`except Exception` arm. -/
def mainLoop (send : String → Except PyErr Unit) : List String → LoopResult
  | [] => { processed := [], errorPrinted := some "EOF when reading a line", exitCode := 0 }
  | msg :: rest =>
    if pyStrip msg = "" then mainLoop send rest
    else if pyLower msg = ":q" ∨ pyLower msg = "quit" then
      { processed := [], errorPrinted := none, exitCode := 0 }
    else
      match send msg with
      | Except.ok _ =>
        let r := mainLoop send rest
        { r with processed := msg :: r.processed }
      | Except.error PyErr.interrupt =>
        { processed := [msg], errorPrinted := none, exitCode := 0 }
      | Except.error (PyErr.exc m) =>
        { processed := [msg], errorPrinted := some m, exitCode := 0 }

example :
    processEvent "b" [] { threadId := none, pending := [] }
        (mkStart (Json.str "A") (Json.str "N")) =
      ({ threadId := none,
         pending := [(some (Json.str "A"), { name := some (Json.str "N"), buffer := "" })] },
        []) := rfl

example :
    processEvent "b" [] { threadId := none, pending := [] } (mkRunStarted (Json.str "T1")) =
      ({ threadId := some (Json.str "T1"), pending := [] },
        [Output.yielded (mkRunStarted (Json.str "T1"))]) := rfl

example :
    (processEvents "b" []
        { threadId := none, pending := [] }
        [mkStart (Json.str "A") (Json.str "N"),
          mkArgs (Json.str "A") "\x7b\x22x\x22:",
          mkArgs (Json.str "A") "1\x7d",
          mkEnd (Json.str "A")]).2 =
      [Output.post
        { toolCallName := some (Json.str "N"), toolCallId := some (Json.str "A"),
          arguments := Json.obj [("x", Json.num 1)] }
        { url := "b/tool_result",
          body := PostBody.error (some (Json.str "A")) "Unknown tool: N" }] := rfl

theorem keyEq_refl (k : Option Json) (h : hashableOpt k = true) : keyEq k k = true := by
  cases k with
  | none => rfl
  | some j => cases j <;> simp_all [hashableOpt, Json.hashable, keyEq, Json.keyBeq]

theorem pendLookup_pendInsert_self (k : Option Json) (v : PendingEntry) (m : PendMap)
    (h : keyEq k k = true) : pendLookup k (pendInsert k v m) = some v := by
  induction m with
  | nil => simp [pendInsert, pendLookup, h]
  | cons hd tl ih =>
    obtain ⟨k2, v2⟩ := hd
    by_cases h2 : keyEq k2 k = true
    · simp [pendInsert, pendLookup, h2, h]
    · simp [pendInsert, pendLookup, h2, ih]

theorem pendRemove_eq_of_lookup_none (k : Option Json) (m : PendMap)
    (h : pendLookup k m = none) : pendRemove k m = m := by
  induction m with
  | nil => rfl
  | cons hd tl ih =>
    obtain ⟨k2, v2⟩ := hd
    by_cases h2 : keyEq k2 k = true
    · simp [pendLookup, h2] at h
    · simp [pendLookup, h2] at h
      simp [pendRemove, h2, ih h]

theorem processEvent_start (base : String) (R : Registry) (s : ClientState) (e : Json)
    (ht : getTypeStr e = some "TOOL_CALL_START") :
    processEvent base R s e =
      ({ s with pending := pendInsert (Json.get? e "toolCallId") (⟨Json.get? e "toolCallName", ""⟩ : PendingEntry) s.pending }, []) := by
  simp [processEvent, ht]

theorem processEvent_args_found (base : String) (R : Registry) (s : ClientState) (e : Json)
    (entry : PendingEntry) (ht : getTypeStr e = some "TOOL_CALL_ARGS")
    (h : pendLookup (Json.get? e "toolCallId") s.pending = some entry) :
    processEvent base R s e =
      ({ s with pending := pendInsert (Json.get? e "toolCallId") (⟨entry.name, entry.buffer ++ getDelta e⟩ : PendingEntry) s.pending }, []) := by
  simp [processEvent, ht, h]

theorem processEvent_args_missing (base : String) (R : Registry) (s : ClientState) (e : Json)
    (ht : getTypeStr e = some "TOOL_CALL_ARGS")
    (h : pendLookup (Json.get? e "toolCallId") s.pending = none) :
    processEvent base R s e =
      ({ s with pending := pendInsert (Json.get? e "toolCallId") (⟨Json.get? e "toolCallName", getDelta e⟩ : PendingEntry) s.pending }, []) := by
  simp [processEvent, ht, h]

theorem processEvent_end_found (base : String) (R : Registry) (s : ClientState) (e : Json)
    (entry : PendingEntry) (ht : getTypeStr e = some "TOOL_CALL_END")
    (h : pendLookup (Json.get? e "toolCallId") s.pending = some entry) :
    processEvent base R s e =
      ({ s with pending := pendRemove (Json.get? e "toolCallId") s.pending },
        [Output.post
          { toolCallName := entry.name, toolCallId := Json.get? e "toolCallId",
            arguments := if entry.buffer = "" then Json.obj [] else parseToolArgs entry.buffer }
          (handleToolCall base R
            { toolCallName := entry.name, toolCallId := Json.get? e "toolCallId",
              arguments :=
                if entry.buffer = "" then Json.obj [] else parseToolArgs entry.buffer })]) := by
  simp [processEvent, ht, h]

theorem processEvent_end_missing (base : String) (R : Registry) (s : ClientState) (e : Json)
    (ht : getTypeStr e = some "TOOL_CALL_END")
    (h : pendLookup (Json.get? e "toolCallId") s.pending = none) :
    processEvent base R s e =
      ({ s with pending := pendRemove (Json.get? e "toolCallId") s.pending },
        [Output.post
          { toolCallName := Json.get? e "toolCallName", toolCallId := Json.get? e "toolCallId",
            arguments := Json.obj [] }
          (handleToolCall base R
            { toolCallName := Json.get? e "toolCallName",
              toolCallId := Json.get? e "toolCallId", arguments := Json.obj [] })]) := by
  simp [processEvent, ht, h]

theorem parseJson_empty : parseJson "" = none := rfl

theorem buffer_ne_empty_of_parse (buf : String) (v : Json) (h : parseJson buf = some v) :
    buf ≠ "" := by
  intro hb
  rw [hb, parseJson_empty] at h
  exact Option.noConfusion h

theorem processEvents_append (base : String) (R : Registry) (s : ClientState)
    (l1 l2 : List Json) :
    processEvents base R s (l1 ++ l2) =
      ((processEvents base R (processEvents base R s l1).1 l2).1,
        (processEvents base R s l1).2 ++
          (processEvents base R (processEvents base R s l1).1 l2).2) := by
  induction l1 generalizing s with
  | nil => simp [processEvents]
  | cons e es ih => simp [processEvents, ih]

theorem getTypeStr_mkArgs (id : Json) (f : String) :
    getTypeStr (mkArgs id f) = some "TOOL_CALL_ARGS" := rfl

theorem get_toolCallId_mkArgs (id : Json) (f : String) :
    Json.get? (mkArgs id f) "toolCallId" = some id := rfl

theorem getDelta_mkArgs (id : Json) (f : String) : getDelta (mkArgs id f) = f := rfl

/-- Running a block of TOOL_CALL_ARGS events for an id whose entry is
open appends the fragments, in arrival order, to that entry's buffer,
produces no output, and touches nothing else of the session. -/
theorem processEvents_args_run (base : String) (R : Registry) (id : Json)
    (hid : Json.hashable id = true) :
    ∀ (fs : List String) (s : ClientState) (nm : Option Json) (b : String),
      pendLookup (some id) s.pending = some ⟨nm, b⟩ →
      ∃ pm : PendMap,
        processEvents base R s (fs.map (mkArgs id)) = (⟨s.threadId, pm⟩, []) ∧
        pendLookup (some id) pm = some ⟨nm, b ++ concatFrags fs⟩ := by
  intro fs
  induction fs with
  | nil =>
    intro s nm b h
    exact ⟨s.pending, rfl, by simpa [concatFrags] using h⟩
  | cons f fs ih =>
    intro s nm b h
    have hkey : keyEq (some id) (some id) = true := keyEq_refl _ (by simpa [hashableOpt])
    have hstep := processEvent_args_found base R s (mkArgs id f) ⟨nm, b⟩
      (getTypeStr_mkArgs id f) (by simpa [get_toolCallId_mkArgs] using h)
    have hlook : pendLookup (some id)
        (pendInsert (some id) (⟨nm, b ++ f⟩ : PendingEntry) s.pending) =
        some ⟨nm, b ++ f⟩ := pendLookup_pendInsert_self _ _ _ hkey
    obtain ⟨pm, hrun, hpm⟩ := ih
      ⟨s.threadId, pendInsert (some id) (⟨nm, b ++ f⟩ : PendingEntry) s.pending⟩
      nm (b ++ f) hlook
    refine ⟨pm, ?_, ?_⟩
    · simp only [List.map_cons, processEvents, hstep]
      simp only [get_toolCallId_mkArgs, getDelta_mkArgs] at hstep ⊢
      rw [show ({ s with pending := pendInsert (some id) (⟨nm, b ++ f⟩ : PendingEntry) s.pending } : ClientState) = ⟨s.threadId, pendInsert (some id) (⟨nm, b ++ f⟩ : PendingEntry) s.pending⟩ from rfl] at hstep
      simp [hstep, hrun]
    · simpa [concatFrags, String.append_assoc] using hpm

theorem getTypeStr_mkStart (id name : Json) :
    getTypeStr (mkStart id name) = some "TOOL_CALL_START" := rfl

theorem getTypeStr_mkEnd (id : Json) : getTypeStr (mkEnd id) = some "TOOL_CALL_END" := rfl

theorem parseToolArgs_of_parse (buf : String) (v : Json) (h : parseJson buf = some v) :
    parseToolArgs buf = v := by
  simp [parseToolArgs, h]

/-- C1: for a stream START(id, name) → ARGS(id, f1) … ARGS(id, fn) →
END(id) processed in arrival order, the buffer assembled for the id
right before the END equals the concatenation f1 ++ … ++ fn, and when
that concatenation strictly parses as JSON the dispatcher receives
exactly the assembled call {name, id, arguments = parsed value}. -/
theorem c1_fragment_concat_and_strict_parse_dispatch (base : String) (R : Registry)
    (s : ClientState) (id name : Json) (fs : List String)
    (hid : Json.hashable id = true) :
    pendLookup (some id)
        ((processEvents base R s (mkStart id name :: fs.map (mkArgs id))).1.pending) =
      some ⟨some name, concatFrags fs⟩
    ∧ (∀ v, parseJson (concatFrags fs) = some v →
        ∃ st p,
          processEvents base R s (mkStart id name :: (fs.map (mkArgs id) ++ [mkEnd id])) =
            (st, [Output.post ⟨some name, some id, v⟩ p])) := by
  have hkey : keyEq (some id) (some id) = true := keyEq_refl _ (by simpa [hashableOpt])
  have hstep := processEvent_start base R s (mkStart id name) (getTypeStr_mkStart id name)
  have hids : Json.get? (mkStart id name) "toolCallId" = some id := rfl
  have hnames : Json.get? (mkStart id name) "toolCallName" = some name := rfl
  rw [hids, hnames] at hstep
  have hlook1 : pendLookup (some id)
      (pendInsert (some id) (⟨some name, ""⟩ : PendingEntry) s.pending) =
      some ⟨some name, ""⟩ := pendLookup_pendInsert_self _ _ _ hkey
  obtain ⟨pm, hrun, hpm⟩ := processEvents_args_run base R id hid fs
    ⟨s.threadId, pendInsert (some id) (⟨some name, ""⟩ : PendingEntry) s.pending⟩
    (some name) "" hlook1
  rw [String.empty_append] at hpm
  have hpre : processEvents base R s (mkStart id name :: fs.map (mkArgs id)) =
      (⟨s.threadId, pm⟩, []) := by
    simp only [processEvents, hstep]
    rw [show ({ s with pending := pendInsert (some id) (⟨some name, ""⟩ : PendingEntry) s.pending } : ClientState) = ⟨s.threadId, pendInsert (some id) (⟨some name, ""⟩ : PendingEntry) s.pending⟩ from rfl]
    simp [hrun]
  constructor
  · rw [hpre]
    exact hpm
  · intro v hv
    have hbuf : concatFrags fs ≠ "" := buffer_ne_empty_of_parse _ _ hv
    have hendid : Json.get? (mkEnd id) "toolCallId" = some id := rfl
    have hend := processEvent_end_found base R ⟨s.threadId, pm⟩ (mkEnd id)
      ⟨some name, concatFrags fs⟩ (getTypeStr_mkEnd id) (by rw [hendid]; exact hpm)
    rw [hendid] at hend
    simp only [if_neg hbuf, parseToolArgs_of_parse _ _ hv] at hend
    refine ⟨⟨s.threadId, pendRemove (some id) pm⟩,
      handleToolCall base R ⟨some name, some id, v⟩, ?_⟩
    rw [show mkStart id name :: (fs.map (mkArgs id) ++ [mkEnd id]) =
        (mkStart id name :: fs.map (mkArgs id)) ++ [mkEnd id] from rfl,
      processEvents_append, hpre]
    simp [processEvents, hend]

/-- Witness for C1 at the spec's own example: fragments `{"x":` and
`1}` assemble to `{"x":1}` and the dispatcher receives arguments
`{x: 1}`. -/
theorem c1_witness :
    Json.hashable (Json.str "A") = true
    ∧ pendLookup (some (Json.str "A"))
        ((processEvents "b" [] ⟨none, []⟩
            (mkStart (Json.str "A") (Json.str "N") ::
              ["\x7b\x22x\x22:", "1\x7d"].map (mkArgs (Json.str "A")))).1.pending) =
      some ⟨some (Json.str "N"), concatFrags ["\x7b\x22x\x22:", "1\x7d"]⟩
    ∧ ∃ st p,
        processEvents "b" [] ⟨none, []⟩
            (mkStart (Json.str "A") (Json.str "N") ::
              (["\x7b\x22x\x22:", "1\x7d"].map (mkArgs (Json.str "A")) ++
                [mkEnd (Json.str "A")])) =
          (st, [Output.post
            ⟨some (Json.str "N"), some (Json.str "A"), Json.obj [("x", Json.num 1)]⟩ p]) := by
  refine ⟨rfl, ?_, ?_⟩
  · exact (c1_fragment_concat_and_strict_parse_dispatch "b" [] ⟨none, []⟩
      (Json.str "A") (Json.str "N") ["\x7b\x22x\x22:", "1\x7d"] rfl).1
  · exact (c1_fragment_concat_and_strict_parse_dispatch "b" [] ⟨none, []⟩
      (Json.str "A") (Json.str "N") ["\x7b\x22x\x22:", "1\x7d"] rfl).2
      (Json.obj [("x", Json.num 1)]) rfl

/-- C2: at TOOL_CALL_END with an accumulated non-empty buffer, argument
parsing follows exactly the policy strict-decode, then one single-quote
fallback, then the empty object; the END always produces exactly one
assembled call handed to the dispatcher and never aborts processing. -/
theorem c2_end_argument_parse_policy (base : String) (R : Registry) (s : ClientState)
    (e : Json) (entry : PendingEntry)
    (ht : getTypeStr e = some "TOOL_CALL_END")
    (hfound : pendLookup (Json.get? e "toolCallId") s.pending = some entry)
    (hbuf : entry.buffer ≠ "") :
    (∃ p, processEvent base R s e =
      ({ s with pending := pendRemove (Json.get? e "toolCallId") s.pending },
        [Output.post ⟨entry.name, Json.get? e "toolCallId", parseToolArgs entry.buffer⟩ p]))
    ∧ (∀ v, parseJson entry.buffer = some v → parseToolArgs entry.buffer = v)
    ∧ (parseJson entry.buffer = none →
        ∀ w, parseJson (replaceQuotes entry.buffer) = some w →
          parseToolArgs entry.buffer = w)
    ∧ (parseJson entry.buffer = none → parseJson (replaceQuotes entry.buffer) = none →
        parseToolArgs entry.buffer = Json.obj []) := by
  refine ⟨?_, ?_, ?_, ?_⟩
  · have hend := processEvent_end_found base R s e entry ht hfound
    rw [if_neg hbuf] at hend
    exact ⟨_, hend⟩
  · intro v hv
    simp [parseToolArgs, hv]
  · intro h1 w hw
    simp [parseToolArgs, h1, hw]
  · intro h1 h2
    simp [parseToolArgs, h1, h2]

/-- Witness for C2: a single-quoted buffer fails the strict decode and
is recovered by the quote-repair fallback. -/
theorem c2_witness :
    (∃ p,
      processEvent "b" []
          ⟨none, [(some (Json.str "A"),
            (⟨some (Json.str "N"), "\x7b\x27x\x27: 1\x7d"⟩ : PendingEntry))]⟩
          (mkEnd (Json.str "A")) =
        (⟨none, []⟩,
          [Output.post
            ⟨some (Json.str "N"), some (Json.str "A"),
              parseToolArgs "\x7b\x27x\x27: 1\x7d"⟩ p]))
    ∧ parseToolArgs "\x7b\x27x\x27: 1\x7d" = Json.obj [("x", Json.num 1)] := by
  have h := c2_end_argument_parse_policy "b" []
    ⟨none, [(some (Json.str "A"),
      (⟨some (Json.str "N"), "\x7b\x27x\x27: 1\x7d"⟩ : PendingEntry))]⟩
    (mkEnd (Json.str "A"))
    ⟨some (Json.str "N"), "\x7b\x27x\x27: 1\x7d"⟩ rfl rfl (by decide)
  exact ⟨h.1, h.2.2.1 rfl _ rfl⟩

/-- C3: every assembled call produces exactly one tool-result POST to
`{base}/tool_result` tagged with the call id: success body with the
normalized result, error body for an unknown name or a raising handler;
the dispatcher is total and stream processing continues after it. -/
theorem c3_dispatch_exactly_one_post (base : String) (R : Registry) (c : AssembledCall) :
    (handleToolCall base R c).url = base ++ "/tool_result"
    ∧ (handleToolCall base R c).body.tag = c.toolCallId
    ∧ (lookupTool R c.toolCallName = none →
        (handleToolCall base R c).body =
          PostBody.error c.toolCallId ("Unknown tool: " ++ pyShow c.toolCallName))
    ∧ (∀ f, lookupTool R c.toolCallName = some f →
        (∀ r, f c.arguments = Except.ok r →
          (handleToolCall base R c).body = PostBody.success c.toolCallId (normalizeResult r))
        ∧ (∀ m, f c.arguments = Except.error m →
          (handleToolCall base R c).body = PostBody.error c.toolCallId m))
    ∧ (∀ (s : ClientState) (e : Json), getTypeStr e = some "TOOL_CALL_END" →
        ∃ c2, (processEvent base R s e).2 = [Output.post c2 (handleToolCall base R c2)])
    ∧ (∀ (s : ClientState) (e : Json) (rest : List Json),
        processEvents base R s (e :: rest) =
          ((processEvents base R (processEvent base R s e).1 rest).1,
            (processEvent base R s e).2 ++
              (processEvents base R (processEvent base R s e).1 rest).2)) := by
  refine ⟨rfl, ?_, ?_, ?_, ?_, ?_⟩
  · cases hl : lookupTool R c.toolCallName with
    | none => simp [handleToolCall, hl, PostBody.tag]
    | some f =>
      cases hr : f c.arguments with
      | ok r => simp [handleToolCall, hl, hr, PostBody.tag]
      | error m => simp [handleToolCall, hl, hr, PostBody.tag]
  · intro hl
    simp [handleToolCall, hl]
  · intro f hl
    constructor
    · intro r hr
      simp [handleToolCall, hl, hr]
    · intro m hr
      simp [handleToolCall, hl, hr]
  · intro s e ht
    cases hfound : pendLookup (Json.get? e "toolCallId") s.pending with
    | none => exact ⟨_, by rw [processEvent_end_missing base R s e ht hfound]⟩
    | some entry => exact ⟨_, by rw [processEvent_end_found base R s e entry ht hfound]⟩
  · intro s e rest
    rfl

/-- Witness for C3: an unknown tool name is reported as an error POST,
and a registered raising handler likewise; both to `b/tool_result`. -/
theorem c3_witness :
    (handleToolCall "b" [] ⟨some (Json.str "ghost"), some (Json.str "A"), Json.obj []⟩).url =
      "b/tool_result"
    ∧ (handleToolCall "b" [] ⟨some (Json.str "ghost"), some (Json.str "A"), Json.obj []⟩).body =
        PostBody.error (some (Json.str "A")) "Unknown tool: ghost"
    ∧ (handleToolCall "b" [("boom", fun _ => Except.error "TypeError")]
          ⟨some (Json.str "boom"), some (Json.str "B"), Json.obj []⟩).body =
        PostBody.error (some (Json.str "B")) "TypeError" := by
  refine ⟨(c3_dispatch_exactly_one_post "b" []
      ⟨some (Json.str "ghost"), some (Json.str "A"), Json.obj []⟩).1, ?_, ?_⟩
  · exact (c3_dispatch_exactly_one_post "b" []
      ⟨some (Json.str "ghost"), some (Json.str "A"), Json.obj []⟩).2.2.1 rfl
  · exact ((c3_dispatch_exactly_one_post "b" [("boom", fun _ => Except.error "TypeError")]
      ⟨some (Json.str "boom"), some (Json.str "B"), Json.obj []⟩).2.2.2.1
      (fun _ => Except.error "TypeError") rfl).2 "TypeError" rfl

theorem processEvent_threadId_stable (base : String) (R : Registry) (s : ClientState)
    (e : Json) (h : truthyOpt s.threadId = true) :
    (processEvent base R s e).1.threadId = s.threadId := by
  unfold processEvent
  by_cases h1 : getTypeStr e = some "TOOL_CALL_START"
  · simp [h1]
  · by_cases h2 : getTypeStr e = some "TOOL_CALL_ARGS"
    · cases hp : pendLookup (Json.get? e "toolCallId") s.pending <;> simp [h1, h2, hp]
    · by_cases h3 : getTypeStr e = some "TOOL_CALL_END"
      · simp [h1, h2, h3]
      · simp [h1, h2, h3, h]

theorem processEvent_run_started_assign (base : String) (R : Registry) (s : ClientState)
    (e : Json) (ht : getTypeStr e = some "RUN_STARTED")
    (h : truthyOpt s.threadId = false) :
    processEvent base R s e =
      ({ s with threadId := Json.get? e "threadId" }, [Output.yielded e]) := by
  simp [processEvent, ht, h]

/-- C4: the session thread id is assigned from the threadId field of a
RUN_STARTED processed while the thread id is unset; once set (truthy) no
event changes it, and every outbound request body carries it as
thread_id. -/
theorem c4_thread_id_first_assignment_wins (base : String) (R : Registry) (s : ClientState)
    (e : Json) (msg : String) :
    (truthyOpt s.threadId = false → getTypeStr e = some "RUN_STARTED" →
      (processEvent base R s e).1.threadId = Json.get? e "threadId")
    ∧ (truthyOpt s.threadId = true → (processEvent base R s e).1.threadId = s.threadId)
    ∧ (truthyOpt s.threadId = true → (buildRequest s.threadId msg).thread_id = s.threadId) := by
  refine ⟨?_, ?_, ?_⟩
  · intro h ht
    rw [processEvent_run_started_assign base R s e ht h]
  · intro h
    exact processEvent_threadId_stable base R s e h
  · intro h
    simp [buildRequest, h]

/-- Witness for C4: the first RUN_STARTED sets T1; a later RUN_STARTED
with T2 does not change it; the request body carries T1. -/
theorem c4_witness :
    (processEvent "b" [] ⟨none, []⟩ (mkRunStarted (Json.str "T1"))).1.threadId =
      some (Json.str "T1")
    ∧ (processEvent "b" [] ⟨some (Json.str "T1"), []⟩
        (mkRunStarted (Json.str "T2"))).1.threadId = some (Json.str "T1")
    ∧ (buildRequest (some (Json.str "T1")) "hi").thread_id = some (Json.str "T1") := by
  refine ⟨?_, ?_, ?_⟩
  · exact (c4_thread_id_first_assignment_wins "b" [] ⟨none, []⟩
      (mkRunStarted (Json.str "T1")) "hi").1 rfl rfl
  · exact (c4_thread_id_first_assignment_wins "b" [] ⟨some (Json.str "T1"), []⟩
      (mkRunStarted (Json.str "T2")) "hi").2.1 rfl
  · exact (c4_thread_id_first_assignment_wins "b" [] ⟨some (Json.str "T1"), []⟩
      (mkRunStarted (Json.str "T2")) "hi").2.2 rfl

/-- C10: a RUN_STARTED whose threadId is absent or the empty string does
not count as setting the thread id: it stays falsy, no thread_id goes
into request bodies, and a later RUN_STARTED can still assign it. -/
theorem c10_empty_thread_id_does_not_set (base : String) (R : Registry) (s : ClientState)
    (e e2 : Json) (msg : String)
    (hunset : truthyOpt s.threadId = false)
    (ht : getTypeStr e = some "RUN_STARTED")
    (hempty : Json.get? e "threadId" = none ∨ Json.get? e "threadId" = some (Json.str "")) :
    truthyOpt (processEvent base R s e).1.threadId = false
    ∧ (buildRequest (processEvent base R s e).1.threadId msg).thread_id = none
    ∧ (getTypeStr e2 = some "RUN_STARTED" →
        (processEvent base R (processEvent base R s e).1 e2).1.threadId =
          Json.get? e2 "threadId") := by
  have hassign := processEvent_run_started_assign base R s e ht hunset
  have hfalsy : truthyOpt (processEvent base R s e).1.threadId = false := by
    rw [hassign]
    rcases hempty with h | h <;> simp [h, truthyOpt, Json.truthy]
  refine ⟨hfalsy, ?_, ?_⟩
  · simp [buildRequest, hfalsy]
  · intro ht2
    rw [processEvent_run_started_assign base R _ e2 ht2 hfalsy]

/-- Witness for C10: RUN_STARTED with an empty threadId leaves the
session unset; the next RUN_STARTED with T1 assigns it. -/
theorem c10_witness :
    truthyOpt (processEvent "b" [] ⟨none, []⟩ (mkRunStarted (Json.str ""))).1.threadId = false
    ∧ (buildRequest (processEvent "b" [] ⟨none, []⟩
        (mkRunStarted (Json.str ""))).1.threadId "hi").thread_id = none
    ∧ (processEvent "b" [] (processEvent "b" [] ⟨none, []⟩ (mkRunStarted (Json.str ""))).1
        (mkRunStarted (Json.str "T1"))).1.threadId = some (Json.str "T1") := by
  have h := c10_empty_thread_id_does_not_set "b" [] ⟨none, []⟩
    (mkRunStarted (Json.str "")) (mkRunStarted (Json.str "T1")) "hi" rfl rfl (Or.inr rfl)
  exact ⟨h.1, h.2.1, h.2.2 rfl⟩

def Json.isObj : Json → Bool
  | Json.obj _ => true
  | _ => false

theorem processEvent_other (base : String) (R : Registry) (s : ClientState) (e : Json)
    (h1 : getTypeStr e ≠ some "TOOL_CALL_START")
    (h2 : getTypeStr e ≠ some "TOOL_CALL_ARGS")
    (h3 : getTypeStr e ≠ some "TOOL_CALL_END") :
    processEvent base R s e =
      (if getTypeStr e = some "RUN_STARTED" ∧ truthyOpt s.threadId = false
        then { s with threadId := Json.get? e "threadId" } else s,
        [Output.yielded e]) := by
  simp [processEvent, h1, h2, h3]

/-- C5: tool-lifecycle events (TOOL_CALL_START/ARGS/END) are consumed by
the assembler and never yielded to the caller; every other decoded event
object, unknown kinds included, is yielded to the caller unchanged. -/
theorem c5_tool_events_consumed_others_yielded_unchanged (base : String) (R : Registry)
    (s : ClientState) (e : Json) (_hobj : Json.isObj e = true) :
    ((getTypeStr e = some "TOOL_CALL_START" ∨ getTypeStr e = some "TOOL_CALL_ARGS" ∨
        getTypeStr e = some "TOOL_CALL_END") →
      ∀ ev, Output.yielded ev ∉ (processEvent base R s e).2)
    ∧ ((getTypeStr e ≠ some "TOOL_CALL_START" ∧ getTypeStr e ≠ some "TOOL_CALL_ARGS" ∧
        getTypeStr e ≠ some "TOOL_CALL_END") →
      (processEvent base R s e).2 = [Output.yielded e]) := by
  constructor
  · rintro (ht | ht | ht) ev
    · rw [processEvent_start base R s e ht]
      simp
    · cases hp : pendLookup (Json.get? e "toolCallId") s.pending with
      | none => rw [processEvent_args_missing base R s e ht hp]; simp
      | some entry => rw [processEvent_args_found base R s e entry ht hp]; simp
    · cases hp : pendLookup (Json.get? e "toolCallId") s.pending with
      | none => rw [processEvent_end_missing base R s e ht hp]; simp
      | some entry => rw [processEvent_end_found base R s e entry ht hp]; simp
  · rintro ⟨h1, h2, h3⟩
    rw [processEvent_other base R s e h1 h2 h3]

/-- Witness for C5: a TOOL_CALL_START is consumed, while an event of an
unknown kind is yielded unchanged. -/
theorem c5_witness :
    (∀ ev, Output.yielded ev ∉
      (processEvent "b" [] ⟨none, []⟩ (mkStart (Json.str "A") (Json.str "N"))).2)
    ∧ (processEvent "b" [] ⟨none, []⟩ (Json.obj [("type", Json.str "WEIRD_KIND")])).2 =
        [Output.yielded (Json.obj [("type", Json.str "WEIRD_KIND")])] := by
  constructor
  · exact (c5_tool_events_consumed_others_yielded_unchanged "b" [] ⟨none, []⟩
      (mkStart (Json.str "A") (Json.str "N")) rfl).1 (Or.inl rfl)
  · exact (c5_tool_events_consumed_others_yielded_unchanged "b" [] ⟨none, []⟩
      (Json.obj [("type", Json.str "WEIRD_KIND")]) rfl).2
      ⟨by decide, by decide, by decide⟩

/-- C6: a TOOL_CALL_ARGS for an id with no pending entry creates one
defensively, keeping the fragment as the buffer; a later TOOL_CALL_END
for that id yields an assembled call carrying that entry's (empty or
unknown) name, with no failure. -/
theorem c6_args_without_start_creates_entry (base : String) (R : Registry) (s : ClientState)
    (e : Json)
    (ht : getTypeStr e = some "TOOL_CALL_ARGS")
    (hid : hashableOpt (Json.get? e "toolCallId") = true)
    (hmiss : pendLookup (Json.get? e "toolCallId") s.pending = none) :
    (processEvent base R s e).2 = []
    ∧ pendLookup (Json.get? e "toolCallId") (processEvent base R s e).1.pending =
        some ⟨Json.get? e "toolCallName", getDelta e⟩
    ∧ (∀ e2, getTypeStr e2 = some "TOOL_CALL_END" →
        Json.get? e2 "toolCallId" = Json.get? e "toolCallId" →
        ∃ st p,
          processEvent base R (processEvent base R s e).1 e2 =
            (st, [Output.post
              ⟨Json.get? e "toolCallName", Json.get? e "toolCallId",
                if getDelta e = "" then Json.obj [] else parseToolArgs (getDelta e)⟩ p])) := by
  have hstep := processEvent_args_missing base R s e ht hmiss
  have hlook : pendLookup (Json.get? e "toolCallId")
      (processEvent base R s e).1.pending =
      some ⟨Json.get? e "toolCallName", getDelta e⟩ := by
    rw [hstep]
    exact pendLookup_pendInsert_self _ _ _ (keyEq_refl _ hid)
  refine ⟨by rw [hstep], hlook, ?_⟩
  intro e2 ht2 hid2
  have hfound : pendLookup (Json.get? e2 "toolCallId")
      (processEvent base R s e).1.pending =
      some ⟨Json.get? e "toolCallName", getDelta e⟩ := by rw [hid2]; exact hlook
  have hres := processEvent_end_found base R (processEvent base R s e).1 e2
    ⟨Json.get? e "toolCallName", getDelta e⟩ ht2 hfound
  rw [hid2] at hres
  exact ⟨_, _, hres⟩

/-- Witness for C6: ARGS with no prior START for id A keeps the
fragment; the END then dispatches a call with no name. -/
theorem c6_witness :
    (processEvent "b" [] ⟨none, []⟩ (mkArgs (Json.str "A") "frag")).2 = []
    ∧ pendLookup (some (Json.str "A"))
        (processEvent "b" [] ⟨none, []⟩ (mkArgs (Json.str "A") "frag")).1.pending =
      some ⟨none, "frag"⟩
    ∧ ∃ st p,
        processEvent "b" [] (processEvent "b" [] ⟨none, []⟩
            (mkArgs (Json.str "A") "frag")).1 (mkEnd (Json.str "A")) =
          (st, [Output.post
            ⟨none, some (Json.str "A"),
              if ("frag" : String) = "" then Json.obj [] else parseToolArgs "frag"⟩ p]) := by
  have h := c6_args_without_start_creates_entry "b" [] ⟨none, []⟩
    (mkArgs (Json.str "A") "frag") rfl rfl rfl
  exact ⟨h.1, h.2.1, h.2.2 (mkEnd (Json.str "A")) rfl rfl⟩

/-- C7: a TOOL_CALL_END with no matching open entry still emits an
assembled call whose arguments are the empty object and whose name is
the END event's own toolCallName; nothing fails and the pending map
still has no entry for the id. -/
theorem c7_end_without_entry_empty_args (base : String) (R : Registry) (s : ClientState)
    (e : Json)
    (ht : getTypeStr e = some "TOOL_CALL_END")
    (hmiss : pendLookup (Json.get? e "toolCallId") s.pending = none) :
    (∃ p, processEvent base R s e =
      (s, [Output.post
        ⟨Json.get? e "toolCallName", Json.get? e "toolCallId", Json.obj []⟩ p]))
    ∧ pendLookup (Json.get? e "toolCallId") (processEvent base R s e).1.pending = none := by
  have hrm := pendRemove_eq_of_lookup_none _ _ hmiss
  have hend := processEvent_end_missing base R s e ht hmiss
  rw [hrm] at hend
  exact ⟨⟨_, hend⟩, by rw [hend]; exact hmiss⟩

/-- Witness for C7: an END with no open entry for id A dispatches a call
with empty arguments and the END's own name field (absent here). -/
theorem c7_witness :
    (∃ p, processEvent "b" [] ⟨none, []⟩ (mkEnd (Json.str "A")) =
      (⟨none, []⟩, [Output.post ⟨none, some (Json.str "A"), Json.obj []⟩ p]))
    ∧ pendLookup (some (Json.str "A"))
        (processEvent "b" [] ⟨none, []⟩ (mkEnd (Json.str "A"))).1.pending = none := by
  exact c7_end_without_entry_empty_args "b" [] ⟨none, []⟩ (mkEnd (Json.str "A")) rfl rfl

/-- C9: a line without the `data: ` frame marker, and a data line whose
payload is not valid JSON, produce no event and leave the session state
(pending map and thread id) unchanged. -/
theorem c9_malformed_lines_skipped_without_effect (base : String) (R : Registry)
    (s : ClientState) (line : String) :
    (dataPayload line = none → processLine base R s line = (s, []))
    ∧ (∀ payload, dataPayload line = some payload → parseJson payload = none →
        processLine base R s line = (s, [])) := by
  constructor
  · intro h
    simp [processLine, h]
  · intro payload h hp
    simp [processLine, h, hp]

/-- Witness for C9: a keep-alive line and a data line with malformed
JSON both leave the state untouched and yield nothing. -/
theorem c9_witness :
    processLine "b" [] ⟨some (Json.str "T1"), [(some (Json.str "A"),
        (⟨some (Json.str "N"), "x"⟩ : PendingEntry))]⟩ ": keep-alive" =
      (⟨some (Json.str "T1"), [(some (Json.str "A"),
        (⟨some (Json.str "N"), "x"⟩ : PendingEntry))]⟩, [])
    ∧ processLine "b" [] ⟨some (Json.str "T1"), [(some (Json.str "A"),
        (⟨some (Json.str "N"), "x"⟩ : PendingEntry))]⟩ "data: \x7boops" =
      (⟨some (Json.str "T1"), [(some (Json.str "A"),
        (⟨some (Json.str "N"), "x"⟩ : PendingEntry))]⟩, []) := by
  constructor
  · exact (c9_malformed_lines_skipped_without_effect "b" []
      ⟨some (Json.str "T1"), [(some (Json.str "A"),
        (⟨some (Json.str "N"), "x"⟩ : PendingEntry))]⟩ ": keep-alive").1 rfl
  · exact (c9_malformed_lines_skipped_without_effect "b" []
      ⟨some (Json.str "T1"), [(some (Json.str "A"),
        (⟨some (Json.str "N"), "x"⟩ : PendingEntry))]⟩ "data: \x7boops").2 "\x7boops" rfl rfl

/-- A message-processing function that raises on the input `boom` and
succeeds on everything else. -/
def sendBoom : String → Except PyErr Unit :=
  fun m => if m = "boom" then Except.error (PyErr.exc "bang") else Except.ok ()

theorem mainLoop_exitCode_zero (send : String → Except PyErr Unit) :
    ∀ inputs, (mainLoop send inputs).exitCode = 0 := by
  intro inputs
  induction inputs with
  | nil => rfl
  | cons msg rest ih =>
    by_cases h1 : pyStrip msg = ""
    · simp [mainLoop, h1, ih]
    · by_cases h2 : pyLower msg = ":q" ∨ pyLower msg = "quit"
      · simp [mainLoop, h1, h2]
      · cases hs : send msg with
        | ok u => simp [mainLoop, h1, h2, hs, ih]
        | error e => cases e <;> simp [mainLoop, h1, h2, hs]

/-- Counterexample to C8 as stated: with inputs `boom`, `hello`, `quit`,
where processing `boom` raises, the loop processes only `boom`, prints
the error, and never prompts for `hello` — the `try` wraps the whole
`while` loop, so an uncaught error terminates the loop rather than
letting it continue. -/
theorem c8_counterexample :
    mainLoop sendBoom ["boom", "hello", "quit"] =
      { processed := ["boom"], errorPrinted := some "bang", exitCode := 0 } := by
  decide

/-- C8 (amended): an uncaught error raised while processing a message is
caught by the handler surrounding the loop, printed, and terminates the
loop — later inputs are not processed; the process still exits with code
0 on every path (quit, interrupt, or such an error). -/
theorem c8_amended_error_prints_and_exits_loop (send : String → Except PyErr Unit)
    (inputs : List String) (msg : String) (rest : List String) (m : String)
    (hblank : pyStrip msg ≠ "")
    (hq1 : pyLower msg ≠ ":q") (hq2 : pyLower msg ≠ "quit")
    (hsend : send msg = Except.error (PyErr.exc m)) :
    mainLoop send (msg :: rest) =
      { processed := [msg], errorPrinted := some m, exitCode := 0 }
    ∧ (mainLoop send inputs).exitCode = 0 := by
  constructor
  · have h2 : ¬(pyLower msg = ":q" ∨ pyLower msg = "quit") := by
      rintro (h | h)
      · exact hq1 h
      · exact hq2 h
    simp [mainLoop, hblank, h2, hsend]
  · exact mainLoop_exitCode_zero send inputs

/-- Witness for the amended C8 at the concrete run of
`c8_counterexample`. -/
theorem c8_witness :
    mainLoop sendBoom ["boom", "hello", "quit"] =
      { processed := ["boom"], errorPrinted := some "bang", exitCode := 0 }
    ∧ (mainLoop sendBoom ["ok", "quit"]).exitCode = 0 :=
  c8_amended_error_prints_and_exits_loop sendBoom ["ok", "quit"] "boom" ["hello", "quit"]
    "bang" (by decide) (by decide) (by decide) rfl
